import Mathlib

/-!
Verification of the glance_store backend routing / location codec /
remote-volume provisioning core, shallowly embedded from the repository
sources (glance_store/_drivers/rbd.py, glance_store/_drivers/cinder.py,
glance_store/backend.py).  Byte strings are modelled as List Nat
(Python 2 str is a byte string), machine integers as Nat/Int, and the
float sleep arithmetic of the poll loop as exact rationals (all values
occurring there, powers of two capped at 15, are exactly representable
as binary floats, so Rat models the Python floats faithfully).
-/

namespace GlanceStore

/-- Error taxonomy of glance_store.exceptions together with the external
exception kinds that cross the modelled code (cinderclient errors, OS level
IOError carrying an errno, rbd/rados errors).  Tags distinguish otherwise
identical exception objects raised at different program points. -/
inductive GErr where
  | badStoreUri
  | badStoreConfiguration
  | notFound
  | duplicate
  | storageFull
  | storageWriteDenied
  | inUseByStore
  | backendException (tag : Nat)
  | randomAccessNotSupported
  | ioError (errnoVal : Nat)
  | clientException (tag : Nat)
  | unknownScheme
  | otherError (tag : Nat)
  deriving DecidableEq, Repr

/-- All bytes of a modelled Python 2 byte string are below 256. -/
def bytesOk (s : List Nat) : Prop := ∀ c ∈ s, c < 256

instance (s : List Nat) : Decidable (bytesOk s) :=
  inferInstanceAs (Decidable (∀ c ∈ s, c < 256))

instance {ε α : Type} [DecidableEq ε] [DecidableEq α] :
    DecidableEq (Except ε α) := fun a b =>
  match a, b with
  | .ok x, .ok y =>
      if h : x = y then .isTrue (by rw [h])
      else .isFalse (by intro hc; cases hc; exact h rfl)
  | .error x, .error y =>
      if h : x = y then .isTrue (by rw [h])
      else .isFalse (by intro hc; cases hc; exact h rfl)
  | .ok _, .error _ => .isFalse (by intro hc; cases hc)
  | .error _, .ok _ => .isFalse (by intro hc; cases hc)

/-! ### urllib.quote / urllib.unquote (Python 2), as used by the rbd codec

rbd.StoreLocation.get_uri calls urllib.quote(field, '') on each component;
with safe='' every byte outside Python's always_safe set
(letters, digits, '_', '.', '-') is written as '%' followed by two
uppercase hex digits.  urllib.unquote decodes every '%xy' with two hex
digits (either case) and leaves any other '%' literal. -/

/-- Bytes urllib never escapes: ASCII letters, digits, '_' (95), '.' (46),
'-' (45).  (quote is called with safe='', so nothing else is safe.) -/
def isAlwaysSafe (c : Nat) : Bool :=
  (65 ≤ c && c ≤ 90) || (97 ≤ c && c ≤ 122) || (48 ≤ c && c ≤ 57) ||
    c == 95 || c == 46 || c == 45

/-- Uppercase hex digit byte for a nibble, as urllib.quote emits. -/
def hexDigit (n : Nat) : Nat := if n < 10 then 48 + n else 55 + n

/-- quote of a single byte: itself when always-safe, else percent escape. -/
def quoteByte (c : Nat) : List Nat :=
  if isAlwaysSafe c then [c] else [37, hexDigit (c / 16), hexDigit (c % 16)]

/-- urllib.quote(s, '') over a byte string. -/
def quote (s : List Nat) : List Nat := s.flatMap quoteByte

/-- Is the byte a hex digit (either case), as accepted by urllib.unquote. -/
def isHexByte (c : Nat) : Bool :=
  (48 ≤ c && c ≤ 57) || (65 ≤ c && c ≤ 70) || (97 ≤ c && c ≤ 102)

/-- Numeric value of a hex digit byte. -/
def hexVal (c : Nat) : Nat :=
  if 48 ≤ c ∧ c ≤ 57 then c - 48 else if 65 ≤ c ∧ c ≤ 70 then c - 55 else c - 87

/-- urllib.unquote, one scan step per unit of fuel: decode each percent
escape (37 is '%') followed by two hex digits, leave any other '%' as a
literal byte.  Every step consumes at least one byte, so fuel equal to the
input length always suffices (it only forces termination). -/
def unquoteFuel : Nat → List Nat → List Nat
  | 0, _ => []
  | _ + 1, [] => []
  | fuel + 1, c :: rest =>
    if c = 37 then
      match rest with
      | a :: b :: rest' =>
          if isHexByte a && isHexByte b then
            (16 * hexVal a + hexVal b) :: unquoteFuel fuel rest'
          else 37 :: unquoteFuel fuel rest
      | _ => 37 :: unquoteFuel fuel rest
    else c :: unquoteFuel fuel rest

/-- urllib.unquote over a byte string. -/
def unquote (s : List Nat) : List Nat := unquoteFuel s.length s

/-! ### rbd location codec (rbd.StoreLocation)

URIs are byte strings.  "rbd://" is [114, 98, 100, 58, 47, 47]; '/' is 47.
Python's uri.startswith(p) / uri[len(p):] are modelled as take/drop. -/

/-- The bytes of "rbd://". -/
def rbdUriStart : List Nat := [114, 98, 100, 58, 47, 47]

/-- A parsed rbd location: fsid/pool/snapshot are None or a byte string
(rbd.StoreLocation fields), image is a byte string. -/
structure RBDLoc where
  fsid : Option (List Nat)
  pool : Option (List Nat)
  image : List Nat
  snapshot : Option (List Nat)
  deriving DecidableEq, Repr

/-- Python truthiness of an optional byte-string field (None and the empty
string are falsy). -/
def truthy : Option (List Nat) → Bool
  | none => false
  | some s => !s.isEmpty

/-- rbd.StoreLocation.get_uri: when fsid, pool and snapshot are all truthy,
emit the four-component form with every component quoted (safe='');
otherwise emit "rbd://" followed by the raw image name. -/
def rbdGetUri (loc : RBDLoc) : List Nat :=
  if truthy loc.fsid && truthy loc.pool && truthy loc.snapshot then
    rbdUriStart ++ quote (loc.fsid.getD []) ++ [47] ++ quote (loc.pool.getD []) ++
      [47] ++ quote loc.image ++ [47] ++ quote (loc.snapshot.getD [])
  else
    rbdUriStart ++ loc.image

/-- rbd.StoreLocation.parse_uri: check the "rbd://" scheme, split the rest
on '/', accept exactly 1 (raw image) or exactly 4 (unquoted fsid, pool,
image, snapshot) components, then reject any empty (pre-unquote) component.
Every rejection raises BadStoreUri. -/
def rbdParseUri (uri : List Nat) : Except GErr RBDLoc :=
  if uri.take 6 ≠ rbdUriStart then .error .badStoreUri
  else
    let pieces := (uri.drop 6).splitOn 47
    match pieces with
    | [img] =>
        if [] ∈ pieces then .error .badStoreUri
        else .ok ⟨none, none, img, none⟩
    | [f, p, i, s] =>
        if [] ∈ pieces then .error .badStoreUri
        else .ok ⟨some (unquote f), some (unquote p), unquote i, some (unquote s)⟩
    | _ => .error .badStoreUri

/-- Valid rbd locations (the two shapes the codec itself produces): the
simple shape stores only a nonempty image name that contains no '/' (the
single-component form is emitted unquoted), the full shape has all four
components nonempty with genuine bytes (below 256). -/
def rbdLocValid (loc : RBDLoc) : Prop :=
  (loc.fsid = none ∧ loc.pool = none ∧ loc.snapshot = none ∧
    loc.image ≠ [] ∧ 47 ∉ loc.image) ∨
  (∃ f p s, loc.fsid = some f ∧ loc.pool = some p ∧ loc.snapshot = some s ∧
    f ≠ [] ∧ p ≠ [] ∧ s ≠ [] ∧ loc.image ≠ [] ∧
    bytesOk f ∧ bytesOk p ∧ bytesOk loc.image ∧ bytesOk s)

/-! ### cinder location codec (cinder.StoreLocation) -/

/-- The bytes of "cinder://". -/
def cinderUriStart : List Nat := [99, 105, 110, 100, 101, 114, 58, 47, 47]

/-- Is the byte a lowercase hex digit. -/
def isLowerHexByte (c : Nat) : Bool :=
  (48 ≤ c && c ≤ 57) || (97 ≤ c && c ≤ 102)

/-- Modelled from the spec: glance_store.common.utils.is_uuid_like is not
under src/.  Per the spec the volume identifier must be "UUID-shaped"
("a non-UUID identifier where one is required" is rejected): the canonical
36-byte 8-4-4-4-12 form, hyphens (45) at positions 8, 13, 18 and 23 and
lowercase hex digits elsewhere. -/
def isUuidLike (s : List Nat) : Bool :=
  s.length == 36 &&
    (List.range 36).all fun i =>
      if i = 8 ∨ i = 13 ∨ i = 18 ∨ i = 23 then s.getD i 0 == 45
      else isLowerHexByte (s.getD i 0)

/-- A parsed cinder location: just the volume id. -/
structure CinderLoc where
  volume_id : List Nat
  deriving DecidableEq, Repr

/-- cinder.StoreLocation.get_uri. -/
def cinderGetUri (loc : CinderLoc) : List Nat := cinderUriStart ++ loc.volume_id

/-- cinder.StoreLocation.parse_uri: check the "cinder://" scheme, take the
rest as the volume id, and reject it unless it is UUID-like; both
rejections raise BadStoreUri. -/
def cinderParseUri (uri : List Nat) : Except GErr CinderLoc :=
  if uri.take 9 ≠ cinderUriStart then .error .badStoreUri
  else
    let vid := uri.drop 9
    if isUuidLike vid = false then .error .badStoreUri
    else .ok ⟨vid⟩

/-! ### cinder.Store._wait_volume_status (the await_transition primitive)

The volume's remote status over time is a stream: statuses i is what the
i-th volume.manager.get call returns (the code polls once before the loop
and once per iteration).  Sleeping is modelled by recording the duration;
elapsed time advances exactly by the recorded sleeps, as in the code
(elapsed += wait).  All float values are exact, so Rat is a faithful
model.  The two raise sites both raise exceptions.BackendException, with
distinct messages; they are kept distinct here. -/

/-- Result of one _wait_volume_status call: ok returns the volume (its
final status), the two error constructors are the timeout-message and
unexpected-status-message BackendException raises. -/
inductive WaitOutcome where
  | ok (status : String)
  | timeoutBackendErr
  | unexpectedBackendErr (status : String)
  deriving DecidableEq, Repr

/-- A finished run of _wait_volume_status: its outcome, how many
volume.manager.get calls it performed, and the sleep durations in order. -/
structure WaitRun where
  outcome : WaitOutcome
  polls : Nat
  sleeps : List ℚ
  deriving DecidableEq, Repr

/-- max_recheck_wait = 15 (seconds). -/
def maxRecheckWait : ℚ := 15

/-- The duration of the sleep taken with the given tries counter:
wait = min(0.5 * 2 ** tries, max_recheck_wait). -/
def waitSleep (tries : Nat) : ℚ := min ((1 / 2) * 2 ^ tries) maxRecheckWait

/-- The while loop of _wait_volume_status.  idx is the index of the poll
that produced the currently inspected status, so statuses idx is the
current volume.status; polls in the result counts all gets (idx + 1 at
exit).  The fuel argument only forces termination; waitFuel below always
suffices (waitLoop_isSome), so the none case is unreachable from
waitVolumeStatus. -/
def waitLoop (statuses : Nat → String) (statusTransition statusExpected : String)
    (timeout : ℚ) : Nat → Nat → ℚ → Nat → Option WaitRun
  | 0, _, _, _ => none
  | fuel + 1, tries, elapsed, idx =>
    if statuses idx = statusTransition then
      if timeout ≤ elapsed then some ⟨.timeoutBackendErr, idx + 1, []⟩
      else
        match waitLoop statuses statusTransition statusExpected timeout fuel
            (tries + 1) (elapsed + waitSleep tries) (idx + 1) with
        | none => none
        | some r => some ⟨r.outcome, r.polls, waitSleep tries :: r.sleeps⟩
    else
      if statuses idx ≠ statusExpected then
        some ⟨.unexpectedBackendErr (statuses idx), idx + 1, []⟩
      else some ⟨.ok (statuses idx), idx + 1, []⟩

/-- Fuel that always suffices for waitLoop from a given elapsed time:
every sleep lasts at least 1/2, so elapsed reaches timeout within
ceil(2 * (timeout - elapsed)) iterations. -/
def waitFuel (timeout elapsed : ℚ) : Nat := (⌈2 * (timeout - elapsed)⌉).toNat + 2

/-- cinder.Store._wait_volume_status: poll the status stream until it
leaves statusTransition (then succeed exactly when it equals
statusExpected) or the configured timeout elapses. -/
def waitVolumeStatus (statuses : Nat → String)
    (statusTransition statusExpected : String) (timeout : ℚ) : Option WaitRun :=
  waitLoop statuses statusTransition statusExpected timeout
    (waitFuel timeout 0) 0 0 0

/-! ### cinder.Store._open_cinder_volume (attachment open/close)

The remote calls are modelled by an environment that fixes the outcome of
each call site.  The _wait_volume_status call inside is represented by its
outcome (the primitive itself is modelled above).  The body of the with
block is a parameter: bodyFail = none models a body that returns,
some e a body that raises e. -/

/-- The four teardown steps of the finally block, in source order
(begin_detaching and unreserve are the two variants of the first step). -/
inductive TStep where
  | beginDetaching
  | unreserve
  | disconnectVolume
  | terminateConnection
  | detachVolume
  deriving DecidableEq, Repr

/-- Call-site outcomes for one _open_cinder_volume run.  statusAtClose is
the volume.status value the finally block observes. -/
structure OpenEnv where
  reserveFail : Bool
  initConnFail : Bool
  connectFail : Bool
  attachFail : Bool
  attachWaitFail : Bool
  statusAtClose : String
  beginDetachingFail : Bool
  unreserveFail : Bool
  disconnectFail : Bool
  terminateFail : Bool
  detachFail : Bool
  deriving DecidableEq, Repr

/-- Whether the local variable device was assigned: connect_volume ran and
returned (initialize_connection and the connector factory succeeded). -/
def deviceSet (env : OpenEnv) : Bool := !env.initConnFail && !env.connectFail

/-- The error, if any, that is in flight when the finally block starts:
the first failing call of the try block, or the body's own failure.
Tags name the raise sites; reserve is not included because it fails
before the try/finally is entered. -/
def openBodyErr (env : OpenEnv) (bodyFail : Option GErr) : Option GErr :=
  if env.initConnFail then some (.clientException 1)
  else if env.connectFail then some (.otherError 2)
  else if env.attachFail then some (.clientException 3)
  else if env.attachWaitFail then some (.backendException 4)
  else bodyFail

/-- The finally block of _open_cinder_volume.  The first step
(begin_detaching when status is in-use, unreserve when attaching) is not
wrapped in try/except: its exception propagates out of the finally block,
skipping the remaining steps and replacing the in-flight error.  The
disconnect (only when device was set), terminate_connection and
volumes.detach steps are each wrapped in try/except Exception with
logging.  Returns the steps attempted and the error the finally block
itself raises, if any. -/
def cinderTeardown (env : OpenEnv) : List TStep × Option GErr :=
  if env.statusAtClose = "in-use" then
    if env.beginDetachingFail then ([.beginDetaching], some (.clientException 10))
    else
      ([.beginDetaching] ++ (if deviceSet env then [.disconnectVolume] else []) ++
        [.terminateConnection, .detachVolume], none)
  else if env.statusAtClose = "attaching" then
    if env.unreserveFail then ([.unreserve], some (.clientException 11))
    else
      ([.unreserve] ++ (if deviceSet env then [.disconnectVolume] else []) ++
        [.terminateConnection, .detachVolume], none)
  else
    ((if deviceSet env then [.disconnectVolume] else []) ++
      [.terminateConnection, .detachVolume], none)

/-- cinder.Store._open_cinder_volume: reserve (a failure there raises
BackendException before the try/finally, so no teardown runs), then the
try block (connection setup, attach, wait, body) followed by the finally
teardown.  Python semantics: an exception leaving a finally block replaces
the in-flight one.  Returns the teardown steps attempted and the error the
whole operation surfaces. -/
def openCinderVolume (env : OpenEnv) (bodyFail : Option GErr) :
    List TStep × Option GErr :=
  if env.reserveFail then ([], some (.backendException 0))
  else
    match cinderTeardown env with
    | (steps, some tearErr) => (steps, some tearErr)
    | (steps, none) => (steps, openBodyErr env bodyFail)

/-! ### cinder.Store._cinder_volume_data_iterator and get (partial reads)

The attached block device is a byte list dev; fp.seek(offset) and
fp.read(n) work on a position into dev.  max_size and partial_length are
Python ints and are compared against 0, so they are modelled as Int.
The loop only ever calls read with a nonnegative size (sizes start
nonnegative and every yielded chunk is subtracted before the checks), so
read is modelled for n ≥ 0: it returns up to n bytes from the position. -/

/-- fp.read(n) at position pos of device dev (n ≥ 0 in every reachable
call). -/
def fpRead (dev : List Nat) (pos : Nat) (n : Int) : List Nat :=
  (dev.drop pos).take n.toNat

/-- The while True loop of _cinder_volume_data_iterator: read
min(chunk_size, partial_length, max_size) (without partial_length when it
is none), stop on an empty read, subtract the chunk from max_size and
stop when it reaches 0, then likewise for partial_length.  The fuel only
forces termination; max_size plus one always suffices because every
yielded chunk is nonempty. -/
def cinderIterLoop (dev : List Nat) (chunkSz : Nat) :
    Nat → Nat → Int → Option Int → List (List Nat)
  | 0, _, _, _ => []
  | fuel + 1, pos, maxSize, partLen =>
    let size : Int :=
      match partLen with
      | some pl => min (min (chunkSz : Int) pl) maxSize
      | none => min (chunkSz : Int) maxSize
    let chunk := fpRead dev pos size
    if chunk.isEmpty then []
    else
      let maxSize' := maxSize - chunk.length
      if maxSize' ≤ 0 then [chunk]
      else
        match partLen with
        | some pl =>
            let pl' := pl - chunk.length
            if pl' ≤ 0 then [chunk]
            else chunk :: cinderIterLoop dev chunkSz fuel (pos + chunk.length)
                maxSize' (some pl')
        | none =>
            chunk :: cinderIterLoop dev chunkSz fuel (pos + chunk.length)
                maxSize' none

/-- cinder.Store._cinder_volume_data_iterator with the volume already
open: seek to offset and shrink max_size by it (the source guards the
seek on offset being nonzero; at zero both branches coincide), then run
the read loop.  size is the image size passed by get as max_size. -/
def cinderVolumeDataIterator (dev : List Nat) (size : Int) (offset : Nat)
    (chunkSz : Nat) (partLen : Option Int) : List (List Nat) :=
  cinderIterLoop dev chunkSz ((size - offset).toNat + 1) offset
    (size - offset) partLen

/-- Capability bits a backend declares (capabilities.BitMasks).
readRandom is the READ_RANDOM mask (seek support for partial reads). -/
structure Caps where
  readAccess : Bool
  readRandom : Bool
  writeAccess : Bool
  driverReusable : Bool
  deriving DecidableEq, Repr

/-- cinder.Store._CAPABILITIES = READ_RANDOM | WRITE_ACCESS |
DRIVER_REUSABLE (READ_RANDOM includes READ_ACCESS). -/
def cinderCaps : Caps := ⟨true, true, true, true⟩

/-- rbd.Store._CAPABILITIES = RW_ACCESS (READ_ACCESS | WRITE_ACCESS only:
no random-read bit, not driver-reusable). -/
def rbdCaps : Caps := ⟨true, false, true, false⟩

/-- Modelled from the spec: glance_store/capabilities.py (the
capabilities.check decorator guarding Store.get) is not under src/.  Per
the spec, a partial read (nonzero offset or a given chunk_size) against a
backend whose capability descriptor lacks the random-read bit must fail
with a RandomAccessNotSupported error before any I/O. -/
def getCapGate (caps : Caps) (offset : Nat) (chunkReq : Option Int) :
    Option GErr :=
  if ¬caps.readAccess then some .randomAccessNotSupported
  else if (offset ≠ 0 ∨ chunkReq ≠ none) ∧ ¬caps.readRandom then
    some .randomAccessNotSupported
  else none

/-- cinder.Store.get on an existing volume whose device holds dev and
whose recorded image size is size: after the capability gate, it hands
the request's chunk_size to the iterator as partial_length (the
iterator's own chunk_size is the store READ_CHUNKSIZE) and reports
chunk_size or size. -/
def cinderGet (dev : List Nat) (size : Int) (readChunkSz : Nat)
    (offset : Nat) (chunkReq : Option Int) :
    Except GErr (List (List Nat) × Int) :=
  match getCapGate cinderCaps offset chunkReq with
  | some e => .error e
  | none =>
      .ok (cinderVolumeDataIterator dev size offset readChunkSz chunkReq,
        chunkReq.getD size)

/-- rbd.ImageIterator.__iter__: size = image.stat(); while bytes_left > 0
read min(chunk_size, bytes_left) bytes at offset size - bytes_left and
yield them.  The fuel (size suffices whenever chunk_size ≥ 1) only forces
termination. -/
def rbdImageIterator (img : List Nat) (chunkSz : Nat) :
    Nat → Nat → List (List Nat)
  | 0, _ => []
  | fuel + 1, bytesLeft =>
    if bytesLeft = 0 then []
    else
      let length := min chunkSz bytesLeft
      let data := ((img.drop (img.length - bytesLeft)).take length)
      data :: rbdImageIterator img chunkSz fuel (bytesLeft - data.length)

/-- rbd.Store.get behind the spec-modelled capability gate: rbd lacks the
random-read bit, so any request with a nonzero offset or a chunk_size is
rejected; otherwise the ImageIterator streams the whole image in
READ_CHUNKSIZE chunks from offset 0, and the reported size is the image
size. -/
def rbdGet (img : List Nat) (readChunkSz : Nat) (offset : Nat)
    (chunkReq : Option Int) : Except GErr (List (List Nat) × Int) :=
  match getCapGate rbdCaps offset chunkReq with
  | some e => .error e
  | none =>
      .ok (rbdImageIterator img readChunkSz img.length img.length, img.length)

/-! ### cinder.Store.add

units.Gi = 2^30.  Remote calls and I/O faults are fixed by an environment:
a write call can raise IOError with a given errno, opening the volume
(reserve/connect/attach inside _open_cinder_volume) can raise in a given
round, the creating→available and extending→available waits can raise
(their outcomes stand for the separately modelled _wait_volume_status).
Only the byte counts of the stream are tracked: the claims about add
concern its control flow and error paths.  errno values are the Linux
ones used by the source via the errno module. -/

def errnoEACCES : Nat := 13
def errnoEFBIG : Nat := 27
def errnoENOSPC : Nat := 28

/-- units.Gi = 2^30 bytes. -/
def gi : Nat := 2 ^ 30

/-- Traceable side effects of one add call. -/
inductive AddAction where
  | createVolume (sizeGb : Nat)
  | openVolume (round : Nat)
  | extendVolume (sizeGb : Nat)
  | deleteVolume
  | setReadonly
  deriving DecidableEq, Repr

/-- Fault model for one cinder add call.  writeFailAt k errno makes the
k-th f.write call (counted from 0 across all rounds) raise IOError(errno);
openFailAt r e makes round r's _open_cinder_volume raise e; the two wait
fields give the outcomes of the respective _wait_volume_status calls;
deleteFail makes the cleanup volume.delete() raise. -/
structure CinderAddEnv where
  createWaitFail : Bool
  openFailAt : Option (Nat × GErr)
  writeFailAt : Option (Nat × Nat)
  extendWaitFailAt : Option Nat
  deleteFail : Bool
  deriving DecidableEq, Repr

/-- The errno of the fault injected at the given write call, if any. -/
def writeFaultAt (env : CinderAddEnv) (wIdx : Nat) : Option Nat :=
  match env.writeFailAt with
  | some (k, e) => if k = wIdx then some e else none
  | none => none

/-- Exit of the inner read loop (while True) of cinder.Store.add: done
means the source returned an empty read (need_extend = False), extendNeeded
is the break on the volume-boundary check with the chunk retained in buf,
failed is an exception from f.write. -/
inductive InnerExit where
  | done (bw wIdx : Nat)
  | extendNeeded (retained : List Nat) (rest : List (List Nat)) (bw wIdx : Nat)
  | failed (e : GErr)
  deriving DecidableEq, Repr

/-- The inner while True loop: read a chunk, stop at end of stream,
feed the checksum and verifier, break to the extend path when writing
would cross the current volume size while image_size is zero, otherwise
write it and continue.  bw is bytes_written, wIdx counts f.write calls. -/
def cinderInnerLoop (env : CinderAddEnv) (imageSize sizeGb : Nat) :
    List (List Nat) → Nat → Nat → InnerExit
  | [], bw, wIdx => .done bw wIdx
  | buf :: rest, bw, wIdx =>
    if buf.isEmpty then .done bw wIdx
    else if bw + buf.length > sizeGb * gi ∧ imageSize = 0 then
      .extendNeeded buf rest bw wIdx
    else
      match writeFaultAt env wIdx with
      | some e => .failed (.ioError e)
      | none => cinderInnerLoop env imageSize sizeGb rest (bw + buf.length) (wIdx + 1)

/-- The while need_extend loop of cinder.Store.add (the try block).  Each
round opens the volume, seeks to bytes_written, rewrites the chunk
retained in buf if any, runs the inner loop, and either finishes, fails,
or extends the volume by one GB (a failing extending→available wait is
converted to StorageFull by the source) and goes around again.  The fuel
only forces termination: every extend round has consumed at least the
retained chunk from the stream, so chunks.length + 1 always suffices.
Returns the actions performed and bytes_written or the in-flight error. -/
def cinderRounds (env : CinderAddEnv) (imageSize : Nat) :
    Nat → List (List Nat) → Option (List Nat) → Nat → Nat → Nat → Nat →
    List AddAction × Except GErr Nat
  | 0, _, _, _, _, _, _ => ([], .error (.otherError 99))
  | fuel + 1, chunks, buf, bw, wIdx, round, sizeGb =>
    let openErr : Option GErr :=
      match env.openFailAt with
      | some (r, e) => if r = round then some e else none
      | none => none
    match openErr with
    | some e => ([.openVolume round], .error e)
    | none =>
      let rewrite : Except GErr (Nat × Nat) :=
        match buf with
        | some b =>
            if b.isEmpty then .ok (bw, wIdx)
            else
              match writeFaultAt env wIdx with
              | some e => .error (.ioError e)
              | none => .ok (bw + b.length, wIdx + 1)
        | none => .ok (bw, wIdx)
      match rewrite with
      | .error e => ([.openVolume round], .error e)
      | .ok (bw', wIdx') =>
        match cinderInnerLoop env imageSize sizeGb chunks bw' wIdx' with
        | .failed e => ([.openVolume round], .error e)
        | .done bwF _ => ([.openVolume round], .ok bwF)
        | .extendNeeded retained rest bw'' wIdx'' =>
            let sizeGb' := sizeGb + 1
            if env.extendWaitFailAt = some round then
              ([.openVolume round, .extendVolume sizeGb'], .error .storageFull)
            else
              let next := cinderRounds env imageSize fuel rest (some retained)
                bw'' wIdx'' (round + 1) sizeGb'
              (.openVolume round :: .extendVolume sizeGb' :: next.1, next.2)

/-- size_gb = int(math.ceil(float(image_size) / units.Gi)), then forced to
at least 1 (the float division is exact for realistic image sizes, so the
ceiling is modelled exactly). -/
def cinderSizeGb (imageSize : Nat) : Nat := max 1 ((imageSize + gi - 1) / gi)

/-- The whole try/except IOError/finally of cinder.Store.add, applied to
the in-flight error of the try block: IOError errnos EFBIG and ENOSPC
become StorageFull, EACCES becomes StorageWriteDenied, any other IOError
is re-raised unchanged, and every non-IOError passes through. -/
def cinderTranslateIOErr : GErr → GErr
  | .ioError n =>
      if n = errnoEFBIG ∨ n = errnoENOSPC then .storageFull
      else if n = errnoEACCES then .storageWriteDenied
      else .ioError n
  | e => e

/-- The try block of cinder.Store.add (the while need_extend loop), with
the fuel that always suffices. -/
def cinderAddBody (env : CinderAddEnv) (imageSize : Nat)
    (chunks : List (List Nat)) : List AddAction × Except GErr Nat :=
  cinderRounds env imageSize (chunks.length + 1) chunks none 0 0 0
    (cinderSizeGb imageSize)

/-- cinder.Store.add: create the volume, wait creating→available (a
failure there propagates before the try/finally, so nothing is cleaned
up), run the write rounds; on any failure of the rounds, translate an
IOError via the except clause, attempt volume.delete() in the finally
block (its own failure is caught and logged — deleteFail never affects
the result), and surface the translated error; on success mark the volume
read-only and return bytes_written. -/
def cinderAdd (env : CinderAddEnv) (imageSize : Nat)
    (chunks : List (List Nat)) : List AddAction × Except GErr Nat :=
  let sizeGb := cinderSizeGb imageSize
  if env.createWaitFail then
    ([.createVolume sizeGb], .error (.backendException 20))
  else
    match cinderAddBody env imageSize chunks with
    | (tr, .ok bw) =>
        (.createVolume sizeGb :: tr ++ [.setReadonly], .ok bw)
    | (tr, .error e) =>
        (.createVolume sizeGb :: tr ++ [.deleteVolume],
          .error (cinderTranslateIOErr e))

/-! ### rbd.Store.add -/

/-- The bytes of DEFAULT_SNAPNAME = "snap". -/
def snapName : List Nat := [115, 110, 97, 112]

/-- Traceable side effects of one rbd add call. -/
inductive RbdAction where
  | createImage
  | deleteImage
  deriving DecidableEq, Repr

/-- Fault model for one rbd add call: fsid is what conn.get_fsid returns
(None when unsupported), hasLayering whether rbd.RBD_FEATURE_LAYERING
exists, createImageExists makes librbd.create raise ImageExists,
writeFailAt k e makes the handling (resize/write) of the k-th chunk raise
e, snapFail makes create_snap/protect_snap raise, deleteResult is the
outcome of the cleanup _delete_image call (none = image removed). -/
structure RbdAddEnv where
  fsid : Option (List Nat)
  hasLayering : Bool
  createImageExists : Bool
  writeFailAt : Option (Nat × GErr)
  snapFail : Option GErr
  deleteResult : Option GErr
  deriving DecidableEq, Repr

/-- The for chunk in chunks loop of rbd.Store.add: when image_size is 0,
resize to offset + len(chunk) and count bytes_written; write the chunk at
offset; feed the checksum.  Returns (bytes_written, offset). -/
def rbdWriteLoop (env : RbdAddEnv) (imageSize : Nat) :
    List (List Nat) → Nat → Nat → Nat → Except GErr (Nat × Nat)
  | [], bw, off, _ => .ok (bw, off)
  | chunk :: rest, bw, off, idx =>
    match env.writeFailAt with
    | some (k, e) =>
        if k = idx then .error e
        else
          rbdWriteLoop env imageSize rest
            (if imageSize = 0 then bw + chunk.length else bw)
            (off + chunk.length) (idx + 1)
    | none =>
        rbdWriteLoop env imageSize rest
          (if imageSize = 0 then bw + chunk.length else bw)
          (off + chunk.length) (idx + 1)

/-- The StoreLocation rbd.Store._create_image builds: with
RBD_FEATURE_LAYERING the full (fsid, configured pool, image, "snap")
location, otherwise the image-only location. -/
def rbdLocOf (env : RbdAddEnv) (storePool imageId : List Nat) : RBDLoc :=
  if env.hasLayering then ⟨env.fsid, some storePool, imageId, some snapName⟩
  else ⟨none, none, imageId, none⟩

/-- The guarded section of rbd.Store.add (the inner try block): the write
loop followed, when loc.snapshot is truthy, by create_snap/protect_snap.
Returns bytes_written or the in-flight exception. -/
def rbdAddBody (env : RbdAddEnv) (snapshot : Option (List Nat))
    (imageSize : Nat) (chunks : List (List Nat)) : Except GErr Nat :=
  match rbdWriteLoop env imageSize chunks 0 0 0 with
  | .error e => .error e
  | .ok (bw, _) =>
      if truthy snapshot then
        match env.snapFail with
        | some e => .error e
        | none => .ok bw
      else .ok bw

/-- The error rbd.Store.add surfaces when its guarded section raised e and
the except clause ran _delete_image: a cleanup NotFound is swallowed
(except NotFound: pass) and e is re-raised; any other cleanup exception
propagates out of the except clause, replacing e. -/
def rbdCleanupSurfaced (deleteResult : Option GErr) (e : GErr) : GErr :=
  match deleteResult with
  | none => e
  | some .notFound => e
  | some d => d

/-- rbd.Store.add: _create_image (ImageExists becomes Duplicate, raised
before the inner try so no cleanup applies), then the guarded section;
on its failure _delete_image is attempted and the surfaced error is as in
rbdCleanupSurfaced.  On success the reported size is bytes_written when
image_size was 0, else image_size. -/
def rbdAdd (env : RbdAddEnv) (storePool : List Nat) (imageId : List Nat)
    (imageSize : Nat) (chunks : List (List Nat)) :
    List RbdAction × Except GErr (RBDLoc × Nat) :=
  if env.createImageExists then ([.createImage], .error .duplicate)
  else
    let loc := rbdLocOf env storePool imageId
    match rbdAddBody env loc.snapshot imageSize chunks with
    | .ok bw =>
        ([.createImage], .ok (loc, if imageSize = 0 then bw else imageSize))
    | .error e =>
        ([.createImage, .deleteImage],
          .error (rbdCleanupSurfaced env.deleteResult e))

/-! ### backend.create_stores / _load_stores (registry construction)

Driver construction itself lives in glance_store/driver.py, which is not
under src/; each configured entry is therefore represented by its
observable outcome: _load_store returning None (RuntimeError logged),
construction raising BadStoreConfiguration (swallowed by _load_stores),
or a live store with its schemes, whose configure() may raise
NotImplementedError. -/

/-- Outcome of loading one configured store entry. -/
inductive StoreLoad where
  | loadFail
  | badConfig
  | loaded (schemes : List String) (configNotImpl : Bool)
  deriving DecidableEq, Repr

/-- backend.create_stores over backend._load_stores: entries that failed
to load or raised BadStoreConfiguration are skipped; a loaded store whose
configure raises NotImplementedError is skipped; a loaded, configured
store with no schemes raises BackendException; otherwise the store is
registered and counted. -/
def glanceCreateStores : List StoreLoad → Except GErr Nat
  | [] => .ok 0
  | .loadFail :: rest => glanceCreateStores rest
  | .badConfig :: rest => glanceCreateStores rest
  | .loaded schemes notImpl :: rest =>
      if notImpl then glanceCreateStores rest
      else if schemes.isEmpty then .error (.backendException 40)
      else
        match glanceCreateStores rest with
        | .error e => .error e
        | .ok n => .ok (n + 1)

/-- An entry create_stores actually registers. -/
def registersStore : StoreLoad → Bool
  | .loaded schemes notImpl => !notImpl && !schemes.isEmpty
  | _ => false

/-! ### cinder.Store.get_size -/

/-- Outcome of the volumes.get lookup inside get_size: a found volume
carries its metadata image_size entry (if present and parseable) and its
size in GB; the other constructors are cinderclient NotFound, another
cinderclient ClientException and any other exception. -/
inductive SizeLookup where
  | found (metaImageSize : Option Nat) (sizeGb : Nat)
  | volNotFound
  | clientErr
  | otherErr
  deriving DecidableEq, Repr

/-- cinder.Store.get_size: everything, including the context check, runs
inside try.  A cinderclient NotFound becomes exceptions.NotFound (raised
out of the handler); every other exception — a failing context check, a
client error, anything — is caught by except Exception and turned into a
return of 0; a found volume reports its metadata image_size or
size * Gi. -/
def cinderGetSize (contextOk : Bool) (lookup : SizeLookup) : Except GErr Nat :=
  if ¬contextOk then .ok 0
  else
    match lookup with
    | .found meta sizeGb => .ok (meta.getD (sizeGb * gi))
    | .volNotFound => .error .notFound
    | .clientErr => .ok 0
    | .otherErr => .ok 0

/-! ## Helper lemmas -/

theorem isAlwaysSafe_ne_37 {c : Nat} (h : isAlwaysSafe c = true) : c ≠ 37 := by
  simp only [isAlwaysSafe, Bool.or_eq_true, Bool.and_eq_true, decide_eq_true_eq,
    beq_iff_eq] at h
  omega

theorem isAlwaysSafe_ne_47 {c : Nat} (h : isAlwaysSafe c = true) : c ≠ 47 := by
  simp only [isAlwaysSafe, Bool.or_eq_true, Bool.and_eq_true, decide_eq_true_eq,
    beq_iff_eq] at h
  omega

theorem hexDigit_ne_47 (n : Nat) : hexDigit n ≠ 47 := by
  unfold hexDigit
  split <;> omega

theorem isHexByte_hexDigit {n : Nat} (h : n < 16) : isHexByte (hexDigit n) = true := by
  simp only [isHexByte, hexDigit, Bool.or_eq_true, Bool.and_eq_true, decide_eq_true_eq]
  split <;> omega

theorem hexVal_hexDigit {n : Nat} (h : n < 16) : hexVal (hexDigit n) = n := by
  unfold hexVal hexDigit
  split <;> (repeat' split) <;> omega

theorem notMem_quote_47 (s : List Nat) : 47 ∉ quote s := by
  intro hmem
  simp only [quote, List.mem_flatMap] at hmem
  obtain ⟨c, _, hc⟩ := hmem
  unfold quoteByte at hc
  split at hc
  · next hsafe =>
      simp only [List.mem_singleton] at hc
      exact isAlwaysSafe_ne_47 hsafe hc.symm
  · simp only [List.mem_cons, List.not_mem_nil, or_false] at hc
    rcases hc with hc | hc | hc
    · omega
    · exact hexDigit_ne_47 _ hc.symm
    · exact hexDigit_ne_47 _ hc.symm

theorem quote_ne_nil {s : List Nat} (h : s ≠ []) : quote s ≠ [] := by
  cases s with
  | nil => exact absurd rfl h
  | cons c t =>
      simp only [quote, List.flatMap_cons, ne_eq, List.append_eq_nil]
      intro ⟨h1, _⟩
      unfold quoteByte at h1
      split at h1 <;> simp at h1

theorem unquoteFuel_cons_ne37 {c : Nat} (h : c ≠ 37) (f : Nat) (l : List Nat) :
    unquoteFuel (f + 1) (c :: l) = c :: unquoteFuel f l := by
  simp [unquoteFuel, h]

theorem unquoteFuel_escape {a b : Nat} (h : (isHexByte a && isHexByte b) = true)
    (f : Nat) (l : List Nat) :
    unquoteFuel (f + 1) (37 :: a :: b :: l) =
      (16 * hexVal a + hexVal b) :: unquoteFuel f l := by
  simp [unquoteFuel, h]

theorem unquoteFuel_quote {s : List Nat} (hb : bytesOk s) :
    ∀ fuel, (quote s).length ≤ fuel → unquoteFuel fuel (quote s) = s := by
  induction s with
  | nil =>
      intro fuel _
      cases fuel <;> rfl
  | cons c t ih =>
      intro fuel hlen
      have hc : c < 256 := hb c (List.mem_cons_self c t)
      have hbt : bytesOk t := fun x hx => hb x (List.mem_cons_of_mem c hx)
      by_cases hsafe : isAlwaysSafe c = true
      · have hq : quote (c :: t) = c :: quote t := by simp [quote, quoteByte, hsafe]
        rw [hq] at hlen ⊢
        cases fuel with
        | zero => simp at hlen
        | succ f =>
            rw [unquoteFuel_cons_ne37 (isAlwaysSafe_ne_37 hsafe)]
            rw [ih hbt f (by simp only [List.length_cons] at hlen; omega)]
      · have hq : quote (c :: t) =
            37 :: hexDigit (c / 16) :: hexDigit (c % 16) :: quote t := by
          simp [quote, quoteByte, hsafe]
        rw [hq] at hlen ⊢
        cases fuel with
        | zero => simp at hlen
        | succ f =>
            rw [unquoteFuel_escape
              (by rw [isHexByte_hexDigit (by omega), isHexByte_hexDigit (by omega)]; rfl)]
            rw [hexVal_hexDigit (by omega), hexVal_hexDigit (by omega)]
            rw [ih hbt f (by simp only [List.length_cons] at hlen; omega)]
            congr 1
            omega

theorem unquote_quote {s : List Nat} (hb : bytesOk s) : unquote (quote s) = s :=
  unquoteFuel_quote hb _ le_rfl

theorem take6_rbd (x : List Nat) : (rbdUriStart ++ x).take 6 = rbdUriStart := by
  simp [rbdUriStart]

theorem drop6_rbd (x : List Nat) : (rbdUriStart ++ x).drop 6 = x := by
  simp [rbdUriStart]

theorem splitOn_no_sep {xs : List Nat} (h : 47 ∉ xs) : xs.splitOn 47 = [xs] := by
  have := List.splitOnP_eq_single (fun x => x == 47) xs (by
    intro y hy
    simp only [beq_iff_eq]
    intro hc
    exact h (hc ▸ hy))
  simpa [List.splitOn] using this

theorem rbdParse_rbdGet_simple (img : List Nat) (h1 : img ≠ []) (h2 : 47 ∉ img) :
    rbdParseUri (rbdGetUri ⟨none, none, img, none⟩) = .ok ⟨none, none, img, none⟩ := by
  have hg : rbdGetUri ⟨none, none, img, none⟩ = rbdUriStart ++ img := by
    simp [rbdGetUri, truthy]
  rw [hg]
  simp only [rbdParseUri, take6_rbd, drop6_rbd, ne_eq, not_true_eq_false, if_false,
    splitOn_no_sep h2]
  simp [h1, Ne.symm h1]

theorem rbdParse_rbdGet_full (f p i s : List Nat) (hf : f ≠ []) (hp : p ≠ [])
    (hs : s ≠ []) (hi : i ≠ []) (bf : bytesOk f) (bp : bytesOk p)
    (bi : bytesOk i) (bs : bytesOk s) :
    rbdParseUri (rbdGetUri ⟨some f, some p, i, some s⟩) =
      .ok ⟨some f, some p, i, some s⟩ := by
  have hg : rbdGetUri ⟨some f, some p, i, some s⟩ =
      rbdUriStart ++ [(47:Nat)].intercalate [quote f, quote p, quote i, quote s] := by
    simp [rbdGetUri, truthy, hf, hp, hs, List.intercalate]
  have hsplit : ([(47:Nat)].intercalate
      [quote f, quote p, quote i, quote s]).splitOn 47 =
      [quote f, quote p, quote i, quote s] := by
    refine List.splitOn_intercalate [quote f, quote p, quote i, quote s] 47 ?_ (by simp)
    intro l hl
    simp only [List.mem_cons, List.not_mem_nil, or_false] at hl
    rcases hl with rfl | rfl | rfl | rfl <;> exact notMem_quote_47 _
  rw [hg]
  simp only [rbdParseUri, take6_rbd, drop6_rbd, ne_eq, not_true_eq_false, if_false, hsplit]
  have m1 : ¬ (([]:List Nat) ∈ [quote f, quote p, quote i, quote s]) := by
    simp only [List.mem_cons, List.not_mem_nil, or_false]
    push_neg
    exact ⟨Ne.symm (quote_ne_nil hf), Ne.symm (quote_ne_nil hp),
      Ne.symm (quote_ne_nil hi), Ne.symm (quote_ne_nil hs)⟩
  simp only [m1, if_false, if_neg]
  rw [unquote_quote bf, unquote_quote bp, unquote_quote bi, unquote_quote bs]

/-! ## Claim theorems -/

/-- C4 (amended): for every valid rbd Location — either the simple shape
(only a nonempty, slash-free image name) or the full shape (nonempty
fsid, pool, image and snapshot byte strings) — parsing the formatted URI
returns the original location, and the percent-escaping applied by
formatting is exactly inverted by the unescaping applied by parsing
(unquote after quote is the identity on byte strings).  The original
claim's second half — format (parse u) = u for every well-formed URI u —
fails because parsing also accepts non-canonical percent escapes (see the
counterexample); it holds exactly for URIs in the image of the
formatter, which follows from this round trip. -/
theorem rbd_location_roundtrip (loc : RBDLoc) (h : rbdLocValid loc) :
    rbdParseUri (rbdGetUri loc) = .ok loc ∧
    (∀ t, bytesOk t → unquote (quote t) = t) := by
  refine ⟨?_, fun t ht => unquote_quote ht⟩
  obtain ⟨fsid, pool, image, snapshot⟩ := loc
  rcases h with ⟨h1, h2, h3, h4, h5⟩ | ⟨f, p, s, h1, h2, h3, hf, hp, hs, hi, bf, bp, bi, bs⟩
  · subst h1; subst h2; subst h3
    exact rbdParse_rbdGet_simple image h4 h5
  · simp only at h1 h2 h3
    subst h1; subst h2; subst h3
    exact rbdParse_rbdGet_full f p image s hf hp hs hi bf bp bi bs

/-- C4 counterexample: the well-formed URI "rbd://a/b/c/%41" (four
nonempty, percent-escaped components) parses successfully, but formatting
the parsed location yields the canonical "rbd://a/b/c/A", a different
string — so format (parse u) = u does not hold for all well-formed u. -/
theorem rbd_uri_format_parse_counterexample :
    rbdParseUri (rbdUriStart ++ [97, 47, 98, 47, 99, 47, 37, 52, 49]) =
      .ok ⟨some [97], some [98], [99], some [65]⟩ ∧
    rbdGetUri ⟨some [97], some [98], [99], some [65]⟩ =
      rbdUriStart ++ [97, 47, 98, 47, 99, 47, 65] ∧
    rbdUriStart ++ [97, 47, 98, 47, 99, 47, 65] ≠
      rbdUriStart ++ [97, 47, 98, 47, 99, 47, 37, 52, 49] :=
  ⟨by decide, by decide, by decide⟩

/-- C4 witness: the round trip at a concrete full-shape location whose
pool name contains a slash (so formatting must escape it). -/
theorem rbd_location_roundtrip_witness :
    rbdParseUri (rbdGetUri ⟨some [0], some [112, 47], [105], some [115]⟩) =
      .ok ⟨some [0], some [112, 47], [105], some [115]⟩ :=
  (rbd_location_roundtrip ⟨some [0], some [112, 47], [105], some [115]⟩
    (Or.inr ⟨[0], [112, 47], [115], rfl, rfl, rfl, by decide, by decide, by decide,
      by decide, by decide, by decide, by decide, by decide⟩)).1

/-- C5: every malformed URI is rejected with BadStoreUri and nothing else:
for rbd, a wrong scheme head, a slash-separated component count other
than exactly 1 or exactly 4, or any empty component; for cinder, a wrong
scheme head or a volume id that is not UUID-shaped (the UUID test is
modelled from the spec, see isUuidLike). -/
theorem parse_uri_rejects_malformed (u : List Nat) :
    (u.take 6 ≠ rbdUriStart → rbdParseUri u = .error .badStoreUri) ∧
    (((u.drop 6).splitOn 47).length ≠ 1 → ((u.drop 6).splitOn 47).length ≠ 4 →
      rbdParseUri u = .error .badStoreUri) ∧
    ([] ∈ (u.drop 6).splitOn 47 → rbdParseUri u = .error .badStoreUri) ∧
    (u.take 9 ≠ cinderUriStart → cinderParseUri u = .error .badStoreUri) ∧
    (isUuidLike (u.drop 9) = false → cinderParseUri u = .error .badStoreUri) := by
  refine ⟨?_, ?_, ?_, ?_, ?_⟩
  · intro h
    simp [rbdParseUri, h]
  · intro h1 h4
    by_cases ht : u.take 6 = rbdUriStart
    · rcases hp : (u.drop 6).splitOn 47 with _ | ⟨a, _ | ⟨b, _ | ⟨c, _ | ⟨d, _ | ⟨e, rest⟩⟩⟩⟩⟩ <;>
        rw [hp] at h1 h4 <;> simp_all [rbdParseUri, hp]
    · simp [rbdParseUri, ht]
  · intro hmem
    by_cases ht : u.take 6 = rbdUriStart
    · rcases hp : (u.drop 6).splitOn 47 with _ | ⟨a, _ | ⟨b, _ | ⟨c, _ | ⟨d, _ | ⟨e, rest⟩⟩⟩⟩⟩ <;>
        rw [hp] at hmem <;> simp_all [rbdParseUri, hp]
    · simp [rbdParseUri, ht]
  · intro h
    simp [cinderParseUri, h]
  · intro h
    by_cases ht : u.take 9 = cinderUriStart <;> simp [cinderParseUri, ht, h]

/-- C5 witness: a two-component rbd URI, an rbd URI with an empty
component, and a cinder URI with a non-UUID volume id are all rejected
with BadStoreUri. -/
theorem parse_uri_rejects_malformed_witness :
    rbdParseUri (rbdUriStart ++ [97, 47, 98]) = .error .badStoreUri ∧
    rbdParseUri (rbdUriStart ++ [97, 47, 47, 98, 47, 99]) = .error .badStoreUri ∧
    cinderParseUri (cinderUriStart ++ [120]) = .error .badStoreUri :=
  ⟨(parse_uri_rejects_malformed _).2.1 (by decide) (by decide),
   (parse_uri_rejects_malformed _).2.2.1 (by decide),
   (parse_uri_rejects_malformed _).2.2.2.2 (by decide)⟩


/-- C7: during registry construction, an entry whose construction raised a
configuration error (or failed to load) is skipped and never fails the
registration, while a successfully constructed and configured backend
reporting zero schemes makes create_stores raise BackendException: the
result is that error exactly when such an entry exists, and otherwise
registration succeeds, counting exactly the registered stores. -/
theorem create_stores_skip_and_fatal (entries : List StoreLoad) :
    (glanceCreateStores entries = .error (.backendException 40) ↔
      StoreLoad.loaded [] false ∈ entries) ∧
    (StoreLoad.loaded [] false ∉ entries →
      glanceCreateStores entries = .ok (entries.countP registersStore)) := by
  induction entries with
  | nil => simp [glanceCreateStores]
  | cons e rest ih =>
      obtain ⟨ih1, ih2⟩ := ih
      cases e with
      | loadFail =>
          simp only [glanceCreateStores, List.mem_cons, List.countP_cons,
            registersStore, Bool.false_eq_true, if_false, reduceCtorEq, false_or]
          exact ⟨ih1, fun h => by simpa using ih2 (by simpa using h)⟩
      | badConfig =>
          simp only [glanceCreateStores, List.mem_cons, List.countP_cons,
            registersStore, Bool.false_eq_true, if_false, reduceCtorEq, false_or]
          exact ⟨ih1, fun h => by simpa using ih2 (by simpa using h)⟩
      | loaded schemes notImpl =>
          cases notImpl with
          | true =>
              constructor
              · rw [show glanceCreateStores (.loaded schemes true :: rest) =
                    glanceCreateStores rest from by simp [glanceCreateStores]]
                rw [ih1]
                simp
              · intro h
                have h2 : StoreLoad.loaded [] false ∉ rest := fun hc =>
                  h (List.mem_cons_of_mem _ hc)
                rw [show glanceCreateStores (.loaded schemes true :: rest) =
                    glanceCreateStores rest from by simp [glanceCreateStores]]
                rw [ih2 h2]
                simp [registersStore]
          | false =>
              cases schemes with
              | nil =>
                  constructor
                  · simp [glanceCreateStores]
                  · intro h
                    exact absurd (List.mem_cons_self _ _) h
              | cons sc ss =>
                  have hred : glanceCreateStores (.loaded (sc :: ss) false :: rest) =
                      (match glanceCreateStores rest with
                       | .error e => .error e
                       | .ok n => .ok (n + 1)) := by
                    simp [glanceCreateStores]
                  constructor
                  · rcases hr : glanceCreateStores rest with e | n
                    · rw [hr] at ih1
                      rw [hred, hr]
                      constructor
                      · intro hh
                        exact List.mem_cons_of_mem _ (ih1.mp hh)
                      · intro hh
                        rcases List.mem_cons.mp hh with heq | hmem
                        · exact absurd heq (by simp)
                        · exact ih1.mpr hmem
                    · rw [hr] at ih1
                      rw [hred, hr]
                      constructor
                      · intro hh
                        exact absurd hh (by simp)
                      · intro hh
                        rcases List.mem_cons.mp hh with heq | hmem
                        · exact absurd heq (by simp)
                        · exact absurd (ih1.mpr hmem) (by simp)
                  · intro h
                    have h2 : StoreLoad.loaded [] false ∉ rest := fun hc =>
                      h (List.mem_cons_of_mem _ hc)
                    rw [hred, ih2 h2]
                    simp [registersStore, List.countP_cons, Nat.add_comm]

/-- C7 witness: a registry with a skipped bad-configuration entry, a
skipped load failure and a skipped not-implemented configure still
registers the one good store; a zero-scheme store is fatal. -/
theorem create_stores_witness :
    glanceCreateStores [.badConfig, .loadFail, .loaded ["file"] false,
      .loaded [] true] = .ok 1 ∧
    glanceCreateStores [.loaded ["swift"] false, .loaded [] false] =
      .error (.backendException 40) := by
  constructor
  · have h := (create_stores_skip_and_fatal [.badConfig, .loadFail,
      .loaded ["file"] false, .loaded [] true]).2 (by decide)
    simpa [registersStore] using h
  · exact (create_stores_skip_and_fatal _).1.mpr (by simp)

/-- C10: cinder.Store.get_size raises NotFound exactly when the context
check passed and the volume lookup reported the volume absent; every
other failure (missing context, client error, any other exception) is
swallowed and reported as size 0, and no error other than NotFound can
surface. -/
theorem cinder_get_size_swallows (contextOk : Bool) (lookup : SizeLookup) :
    (cinderGetSize contextOk lookup = .error .notFound ↔
      contextOk = true ∧ lookup = .volNotFound) ∧
    (∀ e, cinderGetSize contextOk lookup = .error e → e = .notFound) ∧
    ((contextOk = false ∨ lookup = .clientErr ∨ lookup = .otherErr) →
      cinderGetSize contextOk lookup = .ok 0) := by
  cases contextOk <;> cases lookup <;> simp [cinderGetSize]

/-- C10 witness: an absent volume raises NotFound; the same lookup with a
failing context check instead returns 0. -/
theorem cinder_get_size_witness :
    cinderGetSize true .volNotFound = .error .notFound ∧
    cinderGetSize false .volNotFound = .ok 0 :=
  ⟨(cinder_get_size_swallows true .volNotFound).1.mpr ⟨rfl, rfl⟩,
   (cinder_get_size_swallows false .volNotFound).2.2 (Or.inl rfl)⟩


/-- C8: when the cinder add try block fails with IOError(errno), the
surfaced error is StorageFull for EFBIG and ENOSPC, StorageWriteDenied
for EACCES, and the unchanged IOError for every other errno. -/
theorem cinder_add_ioerror_translation (env : CinderAddEnv) (imageSize : Nat)
    (chunks : List (List Nat)) (n : Nat)
    (hcw : env.createWaitFail = false)
    (hbody : (cinderAddBody env imageSize chunks).2 = .error (.ioError n)) :
    ((n = errnoEFBIG ∨ n = errnoENOSPC) →
      (cinderAdd env imageSize chunks).2 = .error .storageFull) ∧
    (n = errnoEACCES →
      (cinderAdd env imageSize chunks).2 = .error .storageWriteDenied) ∧
    (n ≠ errnoEFBIG → n ≠ errnoENOSPC → n ≠ errnoEACCES →
      (cinderAdd env imageSize chunks).2 = .error (.ioError n)) := by
  rcases hb : cinderAddBody env imageSize chunks with ⟨tr, res⟩
  rw [hb] at hbody
  simp only at hbody
  subst hbody
  have hA : (cinderAdd env imageSize chunks).2 =
      .error (cinderTranslateIOErr (.ioError n)) := by
    simp [cinderAdd, hcw, hb]
  refine ⟨?_, ?_, ?_⟩
  · intro h
    rw [hA]
    rcases h with h | h <;> simp [cinderTranslateIOErr, h]
  · intro h
    rw [hA]
    simp [cinderTranslateIOErr, h, errnoEACCES, errnoEFBIG, errnoENOSPC]
  · intro h1 h2 h3
    rw [hA]
    simp [cinderTranslateIOErr, h1, h2, h3]

/-- C8 witness: a write failing with ENOSPC (28) during add surfaces
StorageFull. -/
theorem cinder_add_ioerror_translation_witness :
    (cinderAddBody ⟨false, none, some (0, 28), none, true⟩ 5 [[1, 2, 3]]).2 =
      .error (.ioError 28) ∧
    (cinderAdd ⟨false, none, some (0, 28), none, true⟩ 5 [[1, 2, 3]]).2 =
      .error .storageFull :=
  ⟨by decide,
   (cinder_add_ioerror_translation ⟨false, none, some (0, 28), none, true⟩ 5
     [[1, 2, 3]] 28 rfl (by decide)).1 (Or.inr rfl)⟩

/-- C1 (amended): on every close of a cinder volume attachment, the last
three teardown steps (disconnect when a device was connected, terminate
connection, release/detach the attachment) are each independently guarded:
whatever combination of them fails, all of them are attempted and the
operation surfaces the original body/attach error, not a teardown error.
The first step (begin_detaching when the observed status is in-use,
unreserve when it is attaching) is NOT guarded in the source: the original
claim that all four steps are guarded fails (see the counterexample), so
this theorem assumes the first step does not raise. -/
theorem open_cinder_volume_teardown (env : OpenEnv) (bodyFail : Option GErr)
    (hres : env.reserveFail = false)
    (h1 : ¬(env.statusAtClose = "in-use" ∧ env.beginDetachingFail = true))
    (h2 : ¬(env.statusAtClose = "attaching" ∧ env.unreserveFail = true)) :
    (openCinderVolume env bodyFail).2 = openBodyErr env bodyFail ∧
    TStep.terminateConnection ∈ (openCinderVolume env bodyFail).1 ∧
    TStep.detachVolume ∈ (openCinderVolume env bodyFail).1 ∧
    (deviceSet env = true → TStep.disconnectVolume ∈ (openCinderVolume env bodyFail).1) := by
  unfold openCinderVolume cinderTeardown
  rw [hres]
  by_cases hs1 : env.statusAtClose = "in-use"
  · have hbd : env.beginDetachingFail = false := by
      rcases Bool.eq_false_or_eq_true env.beginDetachingFail with h | h
      · exact absurd ⟨hs1, h⟩ h1
      · exact h
    by_cases hd : deviceSet env <;> simp [hs1, hbd, hd]
  · by_cases hs2 : env.statusAtClose = "attaching"
    · have hur : env.unreserveFail = false := by
        rcases Bool.eq_false_or_eq_true env.unreserveFail with h | h
        · exact absurd ⟨hs2, h⟩ h2
        · exact h
      by_cases hd : deviceSet env <;> simp [hs1, hs2, hur, hd]
    · by_cases hd : deviceSet env <;> simp [hs1, hs2, hd]

/-- C1 counterexample: with the volume observed in-use and
begin_detaching raising, the finally block stops after that first step —
disconnect, terminate_connection and detach are never attempted — and the
operation surfaces the begin_detaching error instead of the body's
original IOError. -/
theorem open_cinder_volume_unguarded_counterexample :
    openCinderVolume ⟨false, false, false, false, false, "in-use", true, false,
      false, false, false⟩ (some (.ioError 5)) =
      ([.beginDetaching], some (.clientException 10)) ∧
    some (GErr.clientException 10) ≠ some (GErr.ioError 5) ∧
    TStep.terminateConnection ∉ [TStep.beginDetaching] :=
  ⟨by decide, by decide, by decide⟩

/-- C1 witness: with disconnect, terminate_connection and detach all
raising, every step is still attempted and the body's original IOError is
what the operation surfaces. -/
theorem open_cinder_volume_teardown_witness :
    (openCinderVolume ⟨false, false, false, false, false, "in-use", false, false,
        true, true, true⟩ (some (.ioError 5))).2 =
      openBodyErr ⟨false, false, false, false, false, "in-use", false, false,
        true, true, true⟩ (some (.ioError 5)) ∧
    TStep.terminateConnection ∈ (openCinderVolume ⟨false, false, false, false,
      false, "in-use", false, false, true, true, true⟩ (some (.ioError 5))).1 ∧
    TStep.detachVolume ∈ (openCinderVolume ⟨false, false, false, false, false,
      "in-use", false, false, true, true, true⟩ (some (.ioError 5))).1 ∧
    (deviceSet ⟨false, false, false, false, false, "in-use", false, false, true,
        true, true⟩ = true →
      TStep.disconnectVolume ∈ (openCinderVolume ⟨false, false, false, false,
        false, "in-use", false, false, true, true, true⟩ (some (.ioError 5))).1) :=
  open_cinder_volume_teardown _ _ rfl (by decide) (by decide)

/-- C6 (amended): when the cinder add write rounds fail for any reason,
volume.delete() is attempted and the surfaced error is the (errno
translated) original — independent of the cleanup's own outcome, since the
finally block catches every exception from delete.  Two deviations from
the original claim: (a) a failure of the creating-to-available wait
happens before the try/finally, so it propagates with no cleanup attempt;
(b) in rbd add, the cleanup _delete_image is attempted but only a
NotFound from it is swallowed — any other cleanup error replaces the
original (see the counterexample). -/
theorem add_cleanup_behaviour :
    (∀ env imageSize chunks e, env.createWaitFail = false →
      (cinderAddBody env imageSize chunks).2 = .error e →
      AddAction.deleteVolume ∈ (cinderAdd env imageSize chunks).1 ∧
      (cinderAdd env imageSize chunks).2 = .error (cinderTranslateIOErr e)) ∧
    (∀ env imageSize chunks, env.createWaitFail = true →
      AddAction.deleteVolume ∉ (cinderAdd env imageSize chunks).1 ∧
      (cinderAdd env imageSize chunks).2 = .error (.backendException 20)) ∧
    (∀ env storePool imageId imageSize chunks e, env.createImageExists = false →
      rbdAddBody env (rbdLocOf env storePool imageId).snapshot imageSize chunks =
        .error e →
      RbdAction.deleteImage ∈ (rbdAdd env storePool imageId imageSize chunks).1 ∧
      (rbdAdd env storePool imageId imageSize chunks).2 =
        .error (rbdCleanupSurfaced env.deleteResult e)) := by
  refine ⟨?_, ?_, ?_⟩
  · intro env imageSize chunks e hcw hbody
    rcases hb : cinderAddBody env imageSize chunks with ⟨tr, res⟩
    rw [hb] at hbody
    simp only at hbody
    subst hbody
    constructor
    · simp [cinderAdd, hcw, hb]
    · simp [cinderAdd, hcw, hb]
  · intro env imageSize chunks hcw
    constructor
    · simp [cinderAdd, hcw]
    · simp [cinderAdd, hcw]
  · intro env storePool imageId imageSize chunks e hce hbody
    constructor
    · simp [rbdAdd, hce, hbody]
    · simp [rbdAdd, hce, hbody]

/-- C6 counterexample: an rbd add whose write fails with an arbitrary
error and whose cleanup _delete_image raises InUseByStore surfaces
InUseByStore — the cleanup failure replaces the original error, refuting
the claim that cleanup failure never replaces it. -/
theorem rbd_add_cleanup_masks_counterexample :
    rbdAdd ⟨none, true, false, some (0, .otherError 7), none, some .inUseByStore⟩
      [112] [105] 5 [[1, 2]] =
      ([.createImage, .deleteImage], .error .inUseByStore) ∧
    GErr.inUseByStore ≠ GErr.otherError 7 ∧
    (rbdAdd ⟨none, true, false, some (0, .otherError 7), none, some .inUseByStore⟩
      [112] [105] 5 [[1, 2]]).2 ≠ .error (.otherError 7) :=
  ⟨by decide, by decide, by decide⟩

/-- C6 witness: a failing cinder add attempts the delete and surfaces the
translated original error even though the delete itself fails; a failing
rbd add whose cleanup reports NotFound surfaces the original error. -/
theorem add_cleanup_behaviour_witness :
    (AddAction.deleteVolume ∈
      (cinderAdd ⟨false, none, some (0, 5), none, true⟩ 7 [[1]]).1 ∧
     (cinderAdd ⟨false, none, some (0, 5), none, true⟩ 7 [[1]]).2 =
       .error (cinderTranslateIOErr (.ioError 5))) ∧
    (RbdAction.deleteImage ∈
      (rbdAdd ⟨none, true, false, some (0, .otherError 7), none, some .notFound⟩
        [112] [105] 5 [[1, 2]]).1 ∧
     (rbdAdd ⟨none, true, false, some (0, .otherError 7), none, some .notFound⟩
        [112] [105] 5 [[1, 2]]).2 =
       .error (rbdCleanupSurfaced (some .notFound) (.otherError 7))) :=
  ⟨add_cleanup_behaviour.1 ⟨false, none, some (0, 5), none, true⟩ 7 [[1]]
     (.ioError 5) rfl (by decide),
   add_cleanup_behaviour.2.2 ⟨none, true, false, some (0, .otherError 7), none,
     some .notFound⟩ [112] [105] 5 [[1, 2]] (.otherError 7) rfl (by decide)⟩


theorem waitSleep_ge_half (n : Nat) : (1 / 2 : ℚ) ≤ waitSleep n := by
  apply le_min
  · have h1 : (1 : ℚ) ≤ 2 ^ n := one_le_pow₀ (by norm_num)
    nlinarith
  · norm_num [maxRecheckWait]

theorem waitFuel_step {t e : ℚ} (he : ¬ t ≤ e) (tries f : Nat)
    (h : waitFuel t e ≤ f + 1) : waitFuel t (e + waitSleep tries) ≤ f := by
  have hw := waitSleep_ge_half tries
  have hlt : e < t := lt_of_not_le he
  have hA : (1 : ℤ) ≤ ⌈2 * (t - e)⌉ := Int.ceil_pos.mpr (by linarith)
  have hle : (2 * (t - (e + waitSleep tries)) : ℚ) ≤ 2 * (t - e) - 1 := by linarith
  have hB : ⌈2 * (t - (e + waitSleep tries))⌉ ≤ ⌈2 * (t - e)⌉ - 1 := by
    calc ⌈2 * (t - (e + waitSleep tries))⌉ ≤ ⌈(2 * (t - e) - 1 : ℚ)⌉ :=
          Int.ceil_mono hle
      _ = ⌈2 * (t - e)⌉ - 1 := by
          rw [show (2 * (t - e) - 1 : ℚ) = 2 * (t - e) - ((1 : ℤ) : ℚ) by push_cast; ring,
            Int.ceil_sub_int]
  simp only [waitFuel] at h ⊢
  omega

theorem waitLoop_polls_gt {s : Nat → String} {tr ex : String} {t : ℚ} :
    ∀ fuel tries (e : ℚ) idx r, waitLoop s tr ex t fuel tries e idx = some r →
      idx < r.polls := by
  intro fuel
  induction fuel with
  | zero => intro tries e idx r h; simp [waitLoop] at h
  | succ f ih =>
      intro tries e idx r h
      simp only [waitLoop] at h
      by_cases h1 : s idx = tr
      · rw [if_pos h1] at h
        by_cases h2 : t ≤ e
        · rw [if_pos h2] at h
          cases h
          simp
        · rw [if_neg h2] at h
          rcases hr : waitLoop s tr ex t f (tries + 1) (e + waitSleep tries) (idx + 1)
            with _ | r'
          · rw [hr] at h; simp at h
          · rw [hr] at h
            cases h
            exact Nat.lt_of_succ_lt (ih _ _ _ r' hr)
      · rw [if_neg h1] at h
        by_cases h2 : s idx ≠ ex
        · rw [if_pos h2] at h; cases h; simp
        · rw [if_neg h2] at h; cases h; simp

theorem waitLoop_isSome {s : Nat → String} {tr ex : String} {t : ℚ} :
    ∀ fuel tries (e : ℚ) idx, waitFuel t e ≤ fuel →
      (waitLoop s tr ex t fuel tries e idx).isSome := by
  intro fuel
  induction fuel with
  | zero => intro tries e idx h; simp [waitFuel] at h
  | succ f ih =>
      intro tries e idx h
      simp only [waitLoop]
      by_cases h1 : s idx = tr
      · rw [if_pos h1]
        by_cases h2 : t ≤ e
        · rw [if_pos h2]; simp
        · rw [if_neg h2]
          have hrec := ih (tries + 1) (e + waitSleep tries) (idx + 1)
            (waitFuel_step h2 tries f h)
          rcases hr : waitLoop s tr ex t f (tries + 1) (e + waitSleep tries) (idx + 1)
            with _ | r'
          · rw [hr] at hrec; simp at hrec
          · simp
      · rw [if_neg h1]
        by_cases h2 : s idx ≠ ex
        · rw [if_pos h2]; simp
        · rw [if_neg h2]; simp

theorem waitLoop_all_transition {s : Nat → String} {tr ex : String} {t : ℚ}
    (hall : ∀ i, s i = tr) :
    ∀ fuel tries (e : ℚ) idx r, waitLoop s tr ex t fuel tries e idx = some r →
      r.outcome = .timeoutBackendErr := by
  intro fuel
  induction fuel with
  | zero => intro tries e idx r h; simp [waitLoop] at h
  | succ f ih =>
      intro tries e idx r h
      simp only [waitLoop] at h
      rw [if_pos (hall idx)] at h
      by_cases h2 : t ≤ e
      · rw [if_pos h2] at h
        cases h
        rfl
      · rw [if_neg h2] at h
        rcases hr : waitLoop s tr ex t f (tries + 1) (e + waitSleep tries) (idx + 1)
          with _ | r'
        · rw [hr] at h; simp at h
        · rw [hr] at h
          cases h
          exact ih _ _ _ r' hr

theorem waitLoop_local {s s' : Nat → String} {tr ex : String} {t : ℚ} :
    ∀ fuel tries (e : ℚ) idx r, waitLoop s tr ex t fuel tries e idx = some r →
      (∀ i, idx ≤ i → i < r.polls → s' i = s i) →
      waitLoop s' tr ex t fuel tries e idx = some r := by
  intro fuel
  induction fuel with
  | zero => intro tries e idx r h _; simp [waitLoop] at h
  | succ f ih =>
      intro tries e idx r h hag
      have hidx : idx < r.polls := waitLoop_polls_gt _ _ _ _ _ h
      have hs : s' idx = s idx := hag idx le_rfl hidx
      simp only [waitLoop] at h ⊢
      rw [hs]
      by_cases h1 : s idx = tr
      · rw [if_pos h1] at h ⊢
        by_cases h2 : t ≤ e
        · rw [if_pos h2] at h ⊢
          exact h
        · rw [if_neg h2] at h ⊢
          rcases hr : waitLoop s tr ex t f (tries + 1) (e + waitSleep tries) (idx + 1)
            with _ | r'
          · rw [hr] at h; simp at h
          · rw [hr] at h
            have hpolls : r.polls = r'.polls := by
              cases h
              rfl
            have hag' : ∀ i, idx + 1 ≤ i → i < r'.polls → s' i = s i := by
              intro i hi1 hi2
              exact hag i (by omega) (by omega)
            rw [ih _ _ _ _ hr hag']
            exact h
      · rw [if_neg h1] at h ⊢
        exact h
theorem waitLoop_last {s : Nat → String} {tr ex : String} {t : ℚ} :
    ∀ fuel tries (e : ℚ) idx r, waitLoop s tr ex t fuel tries e idx = some r →
      s (r.polls - 1) ≠ tr →
      (s (r.polls - 1) = ex ∧ r.outcome = .ok (s (r.polls - 1))) ∨
      (s (r.polls - 1) ≠ ex ∧ r.outcome = .unexpectedBackendErr (s (r.polls - 1))) := by
  intro fuel
  induction fuel with
  | zero => intro tries e idx r h _; simp [waitLoop] at h
  | succ f ih =>
      intro tries e idx r h hlast
      simp only [waitLoop] at h
      by_cases h1 : s idx = tr
      · rw [if_pos h1] at h
        by_cases h2 : t ≤ e
        · rw [if_pos h2] at h
          cases h
          exact absurd h1 hlast
        · rw [if_neg h2] at h
          rcases hr : waitLoop s tr ex t f (tries + 1) (e + waitSleep tries) (idx + 1)
            with _ | r'
          · rw [hr] at h; simp at h
          · rw [hr] at h
            cases h
            exact ih _ _ _ r' hr hlast
      · rw [if_neg h1] at h
        by_cases h2 : s idx ≠ ex
        · rw [if_pos h2] at h
          cases h
          exact Or.inr ⟨h2, rfl⟩
        · rw [if_neg h2] at h
          cases h
          exact Or.inl ⟨not_not.mp h2, rfl⟩

theorem waitLoop_sleeps {s : Nat → String} {tr ex : String} {t : ℚ} :
    ∀ fuel tries (e : ℚ) idx r, waitLoop s tr ex t fuel tries e idx = some r →
      ∀ k, k < r.sleeps.length → r.sleeps.getD k 0 = waitSleep (tries + k) := by
  intro fuel
  induction fuel with
  | zero => intro tries e idx r h; simp [waitLoop] at h
  | succ f ih =>
      intro tries e idx r h k
      simp only [waitLoop] at h
      by_cases h1 : s idx = tr
      · rw [if_pos h1] at h
        by_cases h2 : t ≤ e
        · rw [if_pos h2] at h
          cases h
          simp
        · rw [if_neg h2] at h
          rcases hr : waitLoop s tr ex t f (tries + 1) (e + waitSleep tries) (idx + 1)
            with _ | r'
          · rw [hr] at h; simp at h
          · rw [hr] at h
            cases h
            intro hk
            cases k with
            | zero => simp
            | succ k' =>
                simp only [List.getD_cons_succ]
                simp only [List.length_cons] at hk
                have := ih _ _ _ r' hr k' (by omega)
                rw [this]
                congr 1
                omega
      · rw [if_neg h1] at h
        by_cases h2 : s idx ≠ ex
        · rw [if_pos h2] at h; cases h; simp
        · rw [if_neg h2] at h; cases h; simp


/-- C2: for the bounded-exponential-backoff poll primitive
_wait_volume_status, (a) a status stream that never leaves the transition
state makes the call fail with the timeout BackendException; (b) the
result of a call depends only on the statuses it actually polled — so
after the failure at poll count n, no later status is ever examined, i.e.
no further polling occurs; (c) whenever the loop exits because the last
polled status left the transition state, the call succeeds exactly when
that status equals the expected one and fails with the unexpected-status
BackendException otherwise. -/
theorem wait_volume_status_transitions (tr ex : String) (t : ℚ) :
    (∀ s, (∀ i, s i = tr) → ∃ r, waitVolumeStatus s tr ex t = some r ∧
      r.outcome = .timeoutBackendErr) ∧
    (∀ s s' r, waitVolumeStatus s tr ex t = some r →
      (∀ i, i < r.polls → s' i = s i) → waitVolumeStatus s' tr ex t = some r) ∧
    (∀ s r, waitVolumeStatus s tr ex t = some r → s (r.polls - 1) ≠ tr →
      (s (r.polls - 1) = ex ∧ r.outcome = .ok (s (r.polls - 1))) ∨
      (s (r.polls - 1) ≠ ex ∧
        r.outcome = .unexpectedBackendErr (s (r.polls - 1)))) := by
  refine ⟨?_, ?_, ?_⟩
  · intro s hall
    have hsome : (waitLoop s tr ex t (waitFuel t 0) 0 0 0).isSome :=
      waitLoop_isSome (waitFuel t 0) 0 0 0 le_rfl
    rcases ho : waitLoop s tr ex t (waitFuel t 0) 0 0 0 with _ | r
    · rw [ho] at hsome; simp at hsome
    · exact ⟨r, ho, waitLoop_all_transition hall _ _ _ _ r ho⟩
  · intro s s' r h hag
    exact waitLoop_local _ _ _ _ r h (fun i _ hi => hag i hi)
  · intro s r h hlast
    exact waitLoop_last _ _ _ _ r h hlast

/-- C2 witness: with a one-second timeout, a stream stuck at "creating"
for its first three polls times out after polls 0, 1, 2 (sleeping 1/2
then 1); by part (b) the identical run is obtained even on a stream that
becomes "available" from poll 3 on — the timed-out call never polls
again. -/
theorem wait_volume_status_transitions_witness :
    waitVolumeStatus (fun i => if i < 3 then "creating" else "available")
      "creating" "available" 1 =
      some ⟨.timeoutBackendErr, 3, [1 / 2, 1]⟩ :=
  (wait_volume_status_transitions "creating" "available" 1).2.1
    (fun _ => "creating") (fun i => if i < 3 then "creating" else "available")
    ⟨.timeoutBackendErr, 3, [1 / 2, 1]⟩
    (by norm_num [waitVolumeStatus, waitFuel, waitLoop, waitSleep, maxRecheckWait])
    (by intro i hi; simp only at hi ⊢; rw [if_pos hi])

/-- C9: in every finished _wait_volume_status run, the n-th recorded sleep
(0-based) lasts exactly min(0.5 * 2^n, 15) time units; the formula starts
at 1/2, doubles while n ≤ 4, and is pinned to the 15-unit cap from n = 5
on. -/
theorem wait_sleep_backoff (s : Nat → String) (tr ex : String) (t : ℚ)
    (r : WaitRun) (h : waitVolumeStatus s tr ex t = some r) :
    (∀ n, n < r.sleeps.length →
      r.sleeps.getD n 0 = min ((1 / 2) * 2 ^ n) 15) ∧
    (∀ n, n ≤ 4 → min ((1 / 2) * (2 : ℚ) ^ n) 15 = (1 / 2) * 2 ^ n) ∧
    (∀ n, 5 ≤ n → min ((1 / 2) * (2 : ℚ) ^ n) 15 = 15) := by
  refine ⟨?_, ?_, ?_⟩
  · intro n hn
    have := waitLoop_sleeps _ _ _ _ r h n hn
    rw [this]
    simp [waitSleep, maxRecheckWait]
  · intro n hn
    apply min_eq_left
    interval_cases n <;> norm_num [maxRecheckWait]
  · intro n hn
    apply min_eq_right
    have h32 : (2 : ℚ) ^ 5 ≤ 2 ^ n := pow_le_pow_right₀ (by norm_num) hn
    norm_num at h32
    nlinarith

/-- C9 witness: a run that polls four times, sleeping 1/2, 1 and 2: its
sleep at retry index 2 is min(0.5 * 2^2, 15) = 2. -/
theorem wait_sleep_backoff_witness :
    (WaitRun.mk (.ok "available") 4 [1 / 2, 1, 2]).sleeps.getD 2 0 =
      min ((1 / 2) * 2 ^ 2) 15 :=
  (wait_sleep_backoff (fun i => if i < 3 then "creating" else "available")
    "creating" "available" 4 ⟨.ok "available", 4, [1 / 2, 1, 2]⟩
    (by norm_num [waitVolumeStatus, waitFuel, waitLoop, waitSleep,
      maxRecheckWait]; rfl)).1 2 (by norm_num)


theorem fpRead_length {dev : List Nat} {pos : Nat} {n : Int}
    (h : pos + n.toNat ≤ dev.length) :
    (fpRead dev pos n).length = n.toNat := by
  simp only [fpRead, List.length_take, List.length_drop]
  omega

theorem cinderIterLoop_partial (dev : List Nat) (rcs : Nat) (hrcs : 1 ≤ rcs) :
    ∀ fuel (pos : Nat) (maxS pl : Int), 0 < maxS → 0 < pl →
      pos + maxS.toNat ≤ dev.length → maxS.toNat < fuel →
      (cinderIterLoop dev rcs fuel pos maxS (some pl)).flatten =
        (dev.drop pos).take (min pl maxS).toNat := by
  intro fuel
  induction fuel with
  | zero => intro pos maxS pl hm hp hb hf; omega
  | succ f ih =>
      intro pos maxS pl hm hp hb hf
      have hsz1 : 1 ≤ min (min (rcs : Int) pl) maxS := by
        refine le_min (le_min ?_ ?_) ?_ <;> omega
      have hszM : min (min (rcs : Int) pl) maxS ≤ maxS := min_le_right _ _
      have hszP : min (min (rcs : Int) pl) maxS ≤ pl :=
        le_trans (min_le_left _ _) (min_le_right _ _)
      have hchlen : (fpRead dev pos (min (min (rcs : Int) pl) maxS)).length =
          (min (min (rcs : Int) pl) maxS).toNat :=
        fpRead_length (by omega)
      have hne : ¬ ((fpRead dev pos (min (min (rcs : Int) pl) maxS)).isEmpty = true) := by
        rw [List.isEmpty_iff_length_eq_zero, hchlen]
        omega
      simp only [cinderIterLoop, hne, Bool.false_eq_true, if_false, hchlen]
      have hcast : ((min (min (rcs : Int) pl) maxS).toNat : Int) =
          min (min (rcs : Int) pl) maxS := Int.toNat_of_nonneg (by omega)
      rw [hcast]
      by_cases hm0 : maxS - min (min (rcs : Int) pl) maxS ≤ 0
      · rw [if_pos hm0]
        have heq : min (min (rcs : Int) pl) maxS = maxS := le_antisymm hszM (by omega)
        have hminP : min pl maxS = maxS := min_eq_right (by omega)
        simp [fpRead, heq, hminP]
      · rw [if_neg hm0]
        by_cases hp0 : pl - min (min (rcs : Int) pl) maxS ≤ 0
        · rw [if_pos hp0]
          have heq : min (min (rcs : Int) pl) maxS = pl := le_antisymm hszP (by omega)
          have hminP : min pl maxS = pl := min_eq_left (by omega)
          simp [fpRead, heq, hminP]
        · rw [if_neg hp0]
          have hrec := ih (pos + (min (min (rcs : Int) pl) maxS).toNat)
            (maxS - min (min (rcs : Int) pl) maxS)
            (pl - min (min (rcs : Int) pl) maxS)
            (by omega) (by omega) (by omega) (by omega)
          rw [List.flatten_cons]
          rw [hrec]
          have hsub : min (pl - min (min (rcs : Int) pl) maxS)
              (maxS - min (min (rcs : Int) pl) maxS) =
              min pl maxS - min (min (rcs : Int) pl) maxS := by
            rw [← min_sub_sub_right]
          rw [hsub]
          have hszmin : min (min (rcs : Int) pl) maxS ≤ min pl maxS :=
            le_min hszP hszM
          have hsplit : (min pl maxS).toNat =
              (min (min (rcs : Int) pl) maxS).toNat +
              (min pl maxS - min (min (rcs : Int) pl) maxS).toNat := by omega
          rw [hsplit, List.take_add, fpRead]
          congr 1
          rw [List.drop_drop]

theorem cinderIterLoop_full (dev : List Nat) (rcs : Nat) (hrcs : 1 ≤ rcs) :
    ∀ fuel (pos : Nat) (maxS : Int), 0 ≤ maxS →
      pos + maxS.toNat ≤ dev.length → maxS.toNat < fuel →
      (cinderIterLoop dev rcs fuel pos maxS none).flatten =
        (dev.drop pos).take maxS.toNat := by
  intro fuel
  induction fuel with
  | zero => intro pos maxS hm hb hf; omega
  | succ f ih =>
      intro pos maxS hm hb hf
      by_cases hmz : maxS = 0
      · subst hmz
        have hemp : (fpRead dev pos (min (rcs : Int) 0)).isEmpty = true := by
          have h0 : min (rcs : Int) 0 = 0 := min_eq_right (by omega)
          rw [h0]
          simp [fpRead]
        simp only [cinderIterLoop, hemp, if_true]
        simp
      · have hm1 : 1 ≤ maxS := by omega
        have hsz1 : 1 ≤ min (rcs : Int) maxS := le_min (by omega) hm1
        have hszM : min (rcs : Int) maxS ≤ maxS := min_le_right _ _
        have hchlen : (fpRead dev pos (min (rcs : Int) maxS)).length =
            (min (rcs : Int) maxS).toNat :=
          fpRead_length (by omega)
        have hne : ¬ ((fpRead dev pos (min (rcs : Int) maxS)).isEmpty = true) := by
          rw [List.isEmpty_iff_length_eq_zero, hchlen]
          omega
        simp only [cinderIterLoop, hne, Bool.false_eq_true, if_false, hchlen]
        have hcast : ((min (rcs : Int) maxS).toNat : Int) = min (rcs : Int) maxS :=
          Int.toNat_of_nonneg (by omega)
        rw [hcast]
        by_cases hm0 : maxS - min (rcs : Int) maxS ≤ 0
        · rw [if_pos hm0]
          have heq : min (rcs : Int) maxS = maxS := le_antisymm hszM (by omega)
          simp [fpRead, heq]
        · rw [if_neg hm0]
          have hrec := ih (pos + (min (rcs : Int) maxS).toNat)
            (maxS - min (rcs : Int) maxS) (by omega) (by omega) (by omega)
          rw [List.flatten_cons]
          rw [hrec]
          have hsplit : maxS.toNat = (min (rcs : Int) maxS).toNat +
              (maxS - min (rcs : Int) maxS).toNat := by omega
          rw [hsplit, List.take_add, fpRead]
          congr 1
          rw [List.drop_drop]


/-- C3: the partial-read contract.  For cinder get over a volume device
dev whose recorded image size is size: with a requested chunk_size creq
(passed to the iterator as partial_length) and an in-range request
(offset + creq ≤ size ≤ device length), the yielded bytes are exactly the
creq bytes of the stored object starting at offset — in particular
exactly creq bytes are yielded; with no chunk_size the yielded bytes are
the whole object from offset on.  And rbd, whose capability descriptor
lacks the random-read bit, rejects every request with a nonzero offset or
a chunk_size with RandomAccessNotSupported (capability gate modelled from
the spec, see getCapGate). -/
theorem get_partial_read (dev img : List Nat) (size : Int) (offset rcs : Nat)
    (creq : Int) (h1 : 1 ≤ rcs) (h2 : 1 ≤ creq)
    (h3 : (offset : Int) + creq ≤ size) (h4 : size ≤ (dev.length : Int)) :
    ((cinderVolumeDataIterator dev size offset rcs (some creq)).flatten =
      (dev.drop offset).take creq.toNat ∧
     ((cinderVolumeDataIterator dev size offset rcs (some creq)).flatten).length =
       creq.toNat) ∧
    ((cinderVolumeDataIterator dev size offset rcs none).flatten =
      (dev.drop offset).take (size - offset).toNat) ∧
    (∀ off creq', (off ≠ 0 ∨ creq' ≠ none) →
      rbdGet img rcs off creq' = .error .randomAccessNotSupported) := by
  have hflat : (cinderVolumeDataIterator dev size offset rcs (some creq)).flatten =
      (dev.drop offset).take creq.toNat := by
    have h := cinderIterLoop_partial dev rcs h1 ((size - offset).toNat + 1) offset
      (size - offset) creq (by omega) (by omega) (by omega) (by omega)
    rw [cinderVolumeDataIterator, h]
    congr 1
    have : min creq (size - (offset : Int)) = creq := min_eq_left (by omega)
    rw [this]
  refine ⟨⟨hflat, ?_⟩, ?_, ?_⟩
  · rw [hflat]
    simp only [List.length_take, List.length_drop]
    omega
  · have h := cinderIterLoop_full dev rcs h1 ((size - offset).toNat + 1) offset
      (size - offset) (by omega) (by omega) (by omega)
    rw [cinderVolumeDataIterator, h]
  · intro off creq' hor
    rcases hor with hor | hor <;> simp [rbdGet, getCapGate, rbdCaps, hor]

/-- C3 witness: the spec's own example — a 20-byte object read with
offset 5 and chunk_size 3 yields exactly the bytes 5, 6, 7; the same
request against rbd is rejected with RandomAccessNotSupported. -/
theorem get_partial_read_witness :
    (cinderVolumeDataIterator
      [0, 1, 2, 3, 4, 5, 6, 7, 8, 9, 10, 11, 12, 13, 14, 15, 16, 17, 18, 19]
      20 5 4 (some 3)).flatten = [5, 6, 7] ∧
    rbdGet [0, 1, 2] 4 5 (some 3) = .error .randomAccessNotSupported := by
  have h := get_partial_read
    [0, 1, 2, 3, 4, 5, 6, 7, 8, 9, 10, 11, 12, 13, 14, 15, 16, 17, 18, 19]
    [0, 1, 2] 20 5 4 3 (by decide) (by decide) (by decide) (by decide)
  refine ⟨?_, h.2.2 5 (some 3) (Or.inl (by decide))⟩
  rw [h.1.1]
  decide

end GlanceStore
